import Mathlib

/-!
Verification development for the Hexabot Slack channel adapter.

The definitions below are shallow embeddings of the TypeScript source of the
adapter: the request authenticator (`SlackHandler.verifySlackRequest` and
`SlackHandler.middleware` in `src/index.channel.ts`), the webhook body
handling (`SlackHandler.preprocess` / `SlackHandler.handle`), the event
wrappers (`src/wrapper.ts`, both embedded revisions, and the revisions in
`src/unnamed/part_003` and `src/unnamed/part_005`).

JavaScript-specific behaviour is modelled explicitly:
* a possibly-missing object property is an `Option` (or `JSVal` when the
  distinction between a present-but-undefined property and an absent property
  matters, as it does for the `in` operator);
* `parseInt` is modelled by `parseIntJS` including its leading-run and hex
  semantics;
* truthiness of a string value is `truthyStr` (empty string and undefined are
  falsy); arrays are always truthy;
* a thrown exception is `Except.error` or an `Option.none` result, as noted at
  each definition.
-/

namespace SlackChannel

/-- JavaScript `parseInt` helper: value of a decimal digit character. -/
def decDigit (c : Char) : Option Nat :=
  if '0' ≤ c ∧ c ≤ '9' then some (c.toNat - '0'.toNat) else none

/-- JavaScript `parseInt` helper: value of a hexadecimal digit character. -/
def hexDigit (c : Char) : Option Nat :=
  if '0' ≤ c ∧ c ≤ '9' then some (c.toNat - '0'.toNat)
  else if 'a' ≤ c ∧ c ≤ 'f' then some (c.toNat - 'a'.toNat + 10)
  else if 'A' ≤ c ∧ c ≤ 'F' then some (c.toNat - 'A'.toNat + 10)
  else none

/-- Accumulates the numeric value of the longest run of digit characters at
the head of the list, stopping at the first non-digit. -/
def parseRunAux (dig : Char → Option Nat) (base : Nat) : List Char → Nat → Nat
  | [], acc => acc
  | c :: cs, acc =>
    match dig c with
    | some d => parseRunAux dig base cs (acc * base + d)
    | none => acc

/-- Shallow embedding of JavaScript `parseInt(s)` (radix argument omitted, as
in the source): skip leading whitespace, optional sign, an optional `0x`/`0X`
hexadecimal prefix, then the longest run of digits; `none` models `NaN`. -/
def parseIntJS (s : String) : Option Int :=
  let l0 := s.toList.dropWhile Char.isWhitespace
  let sgn : Int := match l0 with
    | '-' :: _ => -1
    | _ => 1
  let l1 : List Char := match l0 with
    | '-' :: r => r
    | '+' :: r => r
    | _ => l0
  match l1 with
  | '0' :: 'x' :: r =>
    if (r.head?.bind hexDigit).isSome then some (sgn * parseRunAux hexDigit 16 r 0) else none
  | '0' :: 'X' :: r =>
    if (r.head?.bind hexDigit).isSome then some (sgn * parseRunAux hexDigit 16 r 0) else none
  | l =>
    if (l.head?.bind decDigit).isSome then some (sgn * parseRunAux decDigit 10 l 0) else none

/-- Shallow embedding of JavaScript `signature.split('=')` on strings. -/
def splitOnEqAux : List Char → List Char → List String
  | [], acc => [String.mk acc.reverse]
  | '=' :: cs, acc => String.mk acc.reverse :: splitOnEqAux cs []
  | c :: cs, acc => splitOnEqAux cs (c :: acc)

/-- JavaScript `s.split('=')`: every maximal `=`-free segment, in order;
`"".split('=')` is `[""]`, exactly as in JavaScript. -/
def splitOnEq (s : String) : List String :=
  splitOnEqAux s.toList []

/-- The distinct failure modes of `SlackHandler.verifySlackRequest`
(src/index.channel.ts, lines 955-1004).  `headerTypeError` models the
`TypeError` thrown by calling `.toString()` on an absent header. -/
inductive VerifyError where
  | headerTypeError
  | missingHeaders
  | nanTimestamp
  | staleTimestamp
  | unknownVersion
  | signatureMismatch
deriving DecidableEq, Repr

/-- `Slack.RequestVerificationOptions` (src/types.ts): the two headers are
modelled as `Option String` (absent header = `none`); `nowMilliseconds` and
`requestTimestampMaxDeltaMin` are the optional overrides of the source. -/
structure VerifyOptions where
  signingSecret : String
  body : String
  signatureHeader : Option String
  timestampHeader : Option String
  nowMilliseconds : Option Int
  requestTimestampMaxDeltaMin : Option Int
deriving DecidableEq, Repr

/-- Shallow embedding of `SlackHandler.verifySlackRequest`
(src/index.channel.ts, lines 955-1004).

* `hmacSha256Hex secret msg` stands for the hex digest of
  `createHmac('sha256', secret).update(msg)`; the HMAC primitive is an
  external library and is therefore a parameter of the embedding.
* `tsscmp` is a constant-time string equality; extensionally it is `=`.
* `dateNowMs` is the value `Date.now()` would return, used when
  `nowMilliseconds` is not supplied.
* The first guard models `!requestTimestampSec || !signature`: the parsed
  timestamp is falsy when it is `NaN` (`none`) or `0`, the signature when it
  is the empty string.  The `Number.isNaN` guard after it can only fire when
  the parsed timestamp is truthy, hence never.
* `Math.floor(nowMs / 1000)` is `Int.fdiv nowMs 1000`.
-/
def verifySlackRequestCore (hmacSha256Hex : String → String → String) (dateNowMs : Int)
    (o : VerifyOptions) (tsStr signature : String) : Except VerifyError Unit :=
  let requestTimestampSec := parseIntJS tsStr
  if requestTimestampSec = none ∨ requestTimestampSec = some 0 ∨ signature = "" then
    Except.error VerifyError.missingHeaders
  else if requestTimestampSec = none then
    Except.error VerifyError.nanTimestamp
  else
    let t := requestTimestampSec.getD 0
    let nowMs := o.nowMilliseconds.getD dateNowMs
    let maxStaleTimestampMinutes := o.requestTimestampMaxDeltaMin.getD 5
    let staleTimestampThresholdSec := Int.fdiv nowMs 1000 - 60 * maxStaleTimestampMinutes
    if t < staleTimestampThresholdSec then
      Except.error VerifyError.staleTimestamp
    else
      let parts := splitOnEq signature
      let signatureVersion := parts.headD ""
      if signatureVersion ≠ "v0" then
        Except.error VerifyError.unknownVersion
      else
        let ourSignatureHash :=
          hmacSha256Hex o.signingSecret
            (signatureVersion ++ ":" ++ toString t ++ ":" ++ o.body)
        match parts[1]? with
        | none => Except.error VerifyError.signatureMismatch
        | some h =>
          if h = "" ∨ ¬ h = ourSignatureHash then
            Except.error VerifyError.signatureMismatch
          else
            Except.ok ()

/-- Entry point of the embedding: the two `.toString()` calls on the headers
come first in the source and throw a `TypeError` when a header is absent;
`verifySlackRequestCore` is the remainder of the body, taken verbatim. -/
def verifySlackRequest (hmacSha256Hex : String → String → String) (dateNowMs : Int)
    (o : VerifyOptions) : Except VerifyError Unit :=
  match o.timestampHeader, o.signatureHeader with
  | some tsStr, some signature => verifySlackRequestCore hmacSha256Hex dateNowMs o tsStr signature
  | _, _ => Except.error VerifyError.headerTypeError

/-- Outcome of `SlackHandler.middleware` (src/index.channel.ts, lines
923-943): either `next()` was called, or the response was sent with an
unauthorized status and the body was not processed further. -/
inductive MiddlewareResult where
  | nextCalled
  | unauthorized (status : Nat) (resBody : String)
deriving DecidableEq, Repr

/-- Shallow embedding of `SlackHandler.middleware`: any exception from
`verifySlackRequest` is caught and answered with `401 Unauthorized!`. -/
def middleware (hmacSha256Hex : String → String → String) (dateNowMs : Int)
    (o : VerifyOptions) : MiddlewareResult :=
  match verifySlackRequest hmacSha256Hex dateNowMs o with
  | Except.ok _ => MiddlewareResult.nextCalled
  | Except.error _ => MiddlewareResult.unauthorized 401 "Unauthorized!"

/-- The staleness threshold computed by `verifySlackRequest`. -/
def staleThreshold (dateNowMs : Int) (o : VerifyOptions) : Int :=
  Int.fdiv (o.nowMilliseconds.getD dateNowMs) 1000 - 60 * (o.requestTimestampMaxDeltaMin.getD 5)

theorem verify_header_absent (hmac : String → String → String) (dateNowMs : Int)
    (o : VerifyOptions)
    (h : o.timestampHeader = none ∨ o.signatureHeader = none) :
    verifySlackRequest hmac dateNowMs o = Except.error VerifyError.headerTypeError := by
  unfold verifySlackRequest
  rcases hts : o.timestampHeader with _ | ts
  · rfl
  rcases hsig : o.signatureHeader with _ | sig
  · rfl
  cases h with
  | inl h => rw [hts] at h; cases h
  | inr h => rw [hsig] at h; cases h

theorem verify_headers_some (hmac : String → String → String) (dateNowMs : Int)
    (o : VerifyOptions) (ts sig : String)
    (hts : o.timestampHeader = some ts) (hsig : o.signatureHeader = some sig) :
    verifySlackRequest hmac dateNowMs o = verifySlackRequestCore hmac dateNowMs o ts sig := by
  unfold verifySlackRequest
  rw [hts, hsig]

theorem verify_core_falsy (hmac : String → String → String) (dateNowMs : Int)
    (o : VerifyOptions) (ts sig : String)
    (hfal : parseIntJS ts = none ∨ parseIntJS ts = some 0 ∨ sig = "") :
    verifySlackRequestCore hmac dateNowMs o ts sig = Except.error VerifyError.missingHeaders := by
  unfold verifySlackRequestCore
  rw [if_pos hfal]

theorem verify_core_truthy (hmac : String → String → String) (dateNowMs : Int)
    (o : VerifyOptions) (ts sig : String) (t : Int)
    (hp : parseIntJS ts = some t) (ht0 : t ≠ 0) (hsne : sig ≠ "") :
    verifySlackRequestCore hmac dateNowMs o ts sig =
      (if t < staleThreshold dateNowMs o then Except.error VerifyError.staleTimestamp
       else if (splitOnEq sig).headD "" ≠ "v0" then Except.error VerifyError.unknownVersion
       else if (splitOnEq sig)[1]?.getD "" = "" ∨
               ¬ (splitOnEq sig)[1]?.getD "" =
                   hmac o.signingSecret ("v0" ++ ":" ++ toString t ++ ":" ++ o.body)
            then Except.error VerifyError.signatureMismatch
       else Except.ok ()) := by
  unfold verifySlackRequestCore
  rw [hp]
  have hfal : ¬ ((some t = (none : Option Int)) ∨ some t = some 0 ∨ sig = "") := by
    simp [ht0, hsne]
  rw [if_neg hfal, if_neg (by simp)]
  simp only [Option.getD_some, staleThreshold]
  apply if_congr Iff.rfl rfl
  by_cases hv : (splitOnEq sig).headD "" = "v0"
  · rw [hv]
    simp only [ne_eq, not_true_eq_false, if_false]
    rcases hh : (splitOnEq sig)[1]? with _ | h
    · simp
    · simp
  · rw [if_pos hv, if_pos hv]

theorem verify_ok_iff (hmac : String → String → String) (dateNowMs : Int) (o : VerifyOptions) :
    verifySlackRequest hmac dateNowMs o = Except.ok () ↔
      ∃ ts sig t h,
        o.timestampHeader = some ts ∧ o.signatureHeader = some sig ∧
        parseIntJS ts = some t ∧ t ≠ 0 ∧
        staleThreshold dateNowMs o ≤ t ∧
        (splitOnEq sig).headD "" = "v0" ∧
        (splitOnEq sig)[1]? = some h ∧ h ≠ "" ∧
        h = hmac o.signingSecret ("v0" ++ ":" ++ toString t ++ ":" ++ o.body) := by
  constructor
  · intro hok
    rcases hts : o.timestampHeader with _ | ts
    · rw [verify_header_absent hmac dateNowMs o (Or.inl hts)] at hok; cases hok
    rcases hsig : o.signatureHeader with _ | sig
    · rw [verify_header_absent hmac dateNowMs o (Or.inr hsig)] at hok; cases hok
    rw [verify_headers_some hmac dateNowMs o ts sig hts hsig] at hok
    by_cases hfal : parseIntJS ts = none ∨ parseIntJS ts = some 0 ∨ sig = ""
    · rw [verify_core_falsy hmac dateNowMs o ts sig hfal] at hok; cases hok
    push_neg at hfal
    obtain ⟨hne, hnz, hsne⟩ := hfal
    rcases hp : parseIntJS ts with _ | t
    · exact absurd hp hne
    have ht0 : t ≠ 0 := by rintro rfl; exact hnz hp
    rw [verify_core_truthy hmac dateNowMs o ts sig t hp ht0 hsne] at hok
    by_cases hst : t < staleThreshold dateNowMs o
    · rw [if_pos hst] at hok; cases hok
    rw [if_neg hst] at hok
    by_cases hv : (splitOnEq sig).headD "" = "v0"
    · rw [if_neg (not_ne_iff.mpr hv)] at hok
      by_cases hz : (splitOnEq sig)[1]?.getD "" = "" ∨
          ¬ (splitOnEq sig)[1]?.getD "" =
              hmac o.signingSecret ("v0" ++ ":" ++ toString t ++ ":" ++ o.body)
      · rw [if_pos hz] at hok; cases hok
      push_neg at hz
      obtain ⟨hzne, hzeq⟩ := hz
      rcases hh : (splitOnEq sig)[1]? with _ | h
      · rw [hh] at hzne; exact absurd rfl hzne
      rw [hh] at hzne hzeq
      exact ⟨ts, sig, t, h, rfl, rfl, hp, ht0, not_lt.mp hst, hv, hh,
        by simpa using hzne, by simpa using hzeq⟩
    · rw [if_pos hv] at hok; cases hok
  · rintro ⟨ts, sig, t, h, hts, hsig, hp, ht0, hle, hv, hh, hne, hhash⟩
    have hsne : sig ≠ "" := by
      rintro rfl
      rw [show splitOnEq "" = [""] from rfl] at hv
      exact absurd hv (by decide)
    rw [verify_headers_some hmac dateNowMs o ts sig hts hsig,
        verify_core_truthy hmac dateNowMs o ts sig t hp ht0 hsne,
        if_neg (not_lt.mpr hle), if_neg (not_ne_iff.mpr hv), if_neg (by
          rw [hh]
          simp only [Option.getD_some]
          rintro (hc | hc)
          · exact hne hc
          · exact hc hhash)]

theorem verify_stale_iff (hmac : String → String → String) (dateNowMs : Int)
    (o : VerifyOptions) (ts sig : String) (t : Int)
    (hts : o.timestampHeader = some ts) (hsig : o.signatureHeader = some sig)
    (hp : parseIntJS ts = some t) (ht0 : t ≠ 0) (hsne : sig ≠ "") :
    verifySlackRequest hmac dateNowMs o = Except.error VerifyError.staleTimestamp ↔
      t < staleThreshold dateNowMs o := by
  rw [verify_headers_some hmac dateNowMs o ts sig hts hsig,
      verify_core_truthy hmac dateNowMs o ts sig t hp ht0 hsne]
  by_cases hst : t < staleThreshold dateNowMs o
  · simp [hst]
  · rw [if_neg hst]
    simp only [hst, iff_false]
    by_cases hv : (splitOnEq sig).headD "" = "v0"
    · rw [if_neg (not_ne_iff.mpr hv)]
      by_cases hz : (splitOnEq sig)[1]?.getD "" = "" ∨
          ¬ (splitOnEq sig)[1]?.getD "" =
              hmac o.signingSecret ("v0" ++ ":" ++ toString t ++ ":" ++ o.body)
      · rw [if_pos hz]; intro hc; simp at hc
      · rw [if_neg hz]; intro hc; simp at hc
    · rw [if_pos hv]; intro hc; simp at hc

theorem verify_ne_nan (hmac : String → String → String) (dateNowMs : Int) (o : VerifyOptions) :
    verifySlackRequest hmac dateNowMs o ≠ Except.error VerifyError.nanTimestamp := by
  rcases hts : o.timestampHeader with _ | ts
  · rw [verify_header_absent hmac dateNowMs o (Or.inl hts)]; simp
  rcases hsig : o.signatureHeader with _ | sig
  · rw [verify_header_absent hmac dateNowMs o (Or.inr hsig)]; simp
  rw [verify_headers_some hmac dateNowMs o ts sig hts hsig]
  by_cases hfal : parseIntJS ts = none ∨ parseIntJS ts = some 0 ∨ sig = ""
  · rw [verify_core_falsy hmac dateNowMs o ts sig hfal]; simp
  push_neg at hfal
  obtain ⟨hne, hnz, hsne⟩ := hfal
  rcases hp : parseIntJS ts with _ | t
  · exact absurd hp hne
  have ht0 : t ≠ 0 := by rintro rfl; exact hnz hp
  rw [verify_core_truthy hmac dateNowMs o ts sig t hp ht0 hsne]
  by_cases hst : t < staleThreshold dateNowMs o
  · simp [hst]
  rw [if_neg hst]
  by_cases hv : (splitOnEq sig).headD "" = "v0"
  · rw [if_neg (not_ne_iff.mpr hv)]
    by_cases hz : (splitOnEq sig)[1]?.getD "" = "" ∨
        ¬ (splitOnEq sig)[1]?.getD "" =
            hmac o.signingSecret ("v0" ++ ":" ++ toString t ++ ":" ++ o.body)
    · rw [if_pos hz]; simp
    · rw [if_neg hz]; simp
  · rw [if_pos hv]; simp

/-- Claim C1, counterexample: a request whose timestamp header is the literal
string `"0"`, taken at `now = 0` milliseconds with the default skew of five
minutes, satisfies every success condition of the claim (both headers
present, the timestamp parses as the valid integer `0`, `now - 0 = 0` is not
more than `300` seconds, the version tag is `v0`, and the hash portion equals
the HMAC of `"v0:0:" ++ body`), yet `verifySlackRequest` raises the
missing-headers error instead of succeeding, because `parseInt` returning `0`
is falsy. -/
theorem claim_C1_counterexample :
    verifySlackRequest (fun _ _ => "aa") 0
        ⟨"s", "b", some "v0=aa", some "0", some 0, none⟩
      = Except.error VerifyError.missingHeaders ∧
    parseIntJS "0" = some 0 ∧
    (0 : Int) - 0 ≤ 5 * 60 ∧
    (splitOnEq "v0=aa").headD "" = "v0" ∧
    (splitOnEq "v0=aa")[1]? = some "aa" ∧
    (fun (_ _ : String) => "aa") "s" ("v0" ++ ":" ++ toString (0 : Int) ++ ":" ++ "b") = "aa" := by
  refine ⟨rfl, rfl, by decide, rfl, rfl, rfl⟩

/-- Claim C1, amended: `verifySlackRequest` succeeds if and only if both
headers are present, the timestamp header parses as a valid nonzero integer
(a timestamp parsing to `0` is rejected by the truthiness guard with the
missing-headers error), the timestamp is at least the staleness threshold
`floor(now/1000) - maxSkewMinutes*60` (default 5 minutes), the portion of the
signature before the first `=` is the literal `v0`, and the hash portion (the
second `split('=')` component) is nonempty and equals the hex HMAC-SHA256 of
`"v0:{timestamp}:{rawBody}"` under the signing secret.  For timestamp header
parsing to `T` and `now = T + 301` seconds with the default skew, it fails
with the staleness error.  On any failure the middleware responds 401
without calling `next()`. -/
theorem claim_C1_authenticator (hmac : String → String → String) (dateNowMs : Int) :
    (∀ o : VerifyOptions,
      verifySlackRequest hmac dateNowMs o = Except.ok () ↔
        ∃ ts sig t h,
          o.timestampHeader = some ts ∧ o.signatureHeader = some sig ∧
          parseIntJS ts = some t ∧ t ≠ 0 ∧
          staleThreshold dateNowMs o ≤ t ∧
          (splitOnEq sig).headD "" = "v0" ∧
          (splitOnEq sig)[1]? = some h ∧ h ≠ "" ∧
          h = hmac o.signingSecret ("v0" ++ ":" ++ toString t ++ ":" ++ o.body)) ∧
    (∀ (secret rawBody tsStr sigStr : String) (T : Int),
      parseIntJS tsStr = some T → T ≠ 0 → sigStr ≠ "" →
      verifySlackRequest hmac dateNowMs
          ⟨secret, rawBody, some sigStr, some tsStr, some ((T + 301) * 1000), none⟩
        = Except.error VerifyError.staleTimestamp) ∧
    (∀ (o : VerifyOptions) (e : VerifyError),
      verifySlackRequest hmac dateNowMs o = Except.error e →
      middleware hmac dateNowMs o = MiddlewareResult.unauthorized 401 "Unauthorized!") := by
  refine ⟨fun o => verify_ok_iff hmac dateNowMs o, ?_, ?_⟩
  · intro secret rawBody tsStr sigStr T hp hT0 hsne
    rw [verify_stale_iff hmac dateNowMs _ tsStr sigStr T rfl rfl hp hT0 hsne]
    have hfdiv : ((T + 301) * 1000).fdiv 1000 = T + 301 :=
      Int.mul_fdiv_cancel (T + 301) (by norm_num)
    simp only [staleThreshold, Option.getD_some, Option.getD_none]
    rw [hfdiv]
    omega
  · intro o e h
    unfold middleware
    rw [h]

/-- Witness for claim C1: a concrete request that satisfies every condition
authenticates, the same request stamped 301 seconds before `now` is rejected
as stale, and the middleware answers 401 on that failure. -/
theorem claim_C1_witness :
    verifySlackRequest (fun _ _ => "aa") 0
        ⟨"s", "b", some "v0=aa", some "5", some 5000, none⟩ = Except.ok () ∧
    verifySlackRequest (fun _ _ => "aa") 0
        ⟨"s", "b", some "v0=aa", some "5", some ((5 + 301) * 1000), none⟩
      = Except.error VerifyError.staleTimestamp ∧
    middleware (fun _ _ => "aa") 0
        ⟨"s", "b", some "v0=aa", some "5", some ((5 + 301) * 1000), none⟩
      = MiddlewareResult.unauthorized 401 "Unauthorized!" := by
  have hstale := (claim_C1_authenticator (fun _ _ => "aa") 0).2.1 "s" "b" "5" "v0=aa" 5
    rfl (by decide) (by decide)
  refine ⟨?_, hstale, (claim_C1_authenticator (fun _ _ => "aa") 0).2.2 _ _ hstale⟩
  exact ((claim_C1_authenticator (fun _ _ => "aa") 0).1 _).mpr
    ⟨"5", "v0=aa", 5, "aa", rfl, rfl, rfl, by decide, by decide, rfl, rfl, by decide, rfl⟩

/-- Claim C9: the staleness guard is one-sided.  For a well-formed (nonzero)
parsed timestamp, the staleness error is raised exactly when the timestamp is
strictly below `floor(now/1000) - maxSkew*60`; every timestamp at or above
that threshold, arbitrarily far in the future included, passes the staleness
check, and with a matching `v0` signature `verifySlackRequest` succeeds. -/
theorem claim_C9_stale_guard_one_sided (hmac : String → String → String) (dateNowMs : Int)
    (o : VerifyOptions) (ts sig : String) (t : Int)
    (hts : o.timestampHeader = some ts) (hsig : o.signatureHeader = some sig)
    (hp : parseIntJS ts = some t) (ht0 : t ≠ 0) (hsne : sig ≠ "") :
    (verifySlackRequest hmac dateNowMs o = Except.error VerifyError.staleTimestamp ↔
      t < staleThreshold dateNowMs o) ∧
    (staleThreshold dateNowMs o ≤ t →
      (splitOnEq sig).headD "" = "v0" →
      ∀ h, (splitOnEq sig)[1]? = some h → h ≠ "" →
        h = hmac o.signingSecret ("v0" ++ ":" ++ toString t ++ ":" ++ o.body) →
        verifySlackRequest hmac dateNowMs o = Except.ok ()) := by
  refine ⟨verify_stale_iff hmac dateNowMs o ts sig t hts hsig hp ht0 hsne, ?_⟩
  intro hle hv h hh hne hhash
  exact (verify_ok_iff hmac dateNowMs o).mpr ⟨ts, sig, t, h, hts, hsig, hp, ht0, hle, hv, hh, hne, hhash⟩

/-- Witness for claim C9: a timestamp 1000000 seconds in the future of
`now = 0` passes the staleness check and authenticates, while a timestamp of
1 at `now = 1000` seconds is stale. -/
theorem claim_C9_witness :
    verifySlackRequest (fun _ _ => "aa") 0
        ⟨"s", "b", some "v0=aa", some "1000000", some 0, none⟩ = Except.ok () ∧
    verifySlackRequest (fun _ _ => "aa") 1000000
        ⟨"s", "b", some "v0=aa", some "1", none, none⟩
      = Except.error VerifyError.staleTimestamp := by
  constructor
  · exact (claim_C9_stale_guard_one_sided (fun _ _ => "aa") 0
        ⟨"s", "b", some "v0=aa", some "1000000", some 0, none⟩ "1000000" "v0=aa" 1000000
        rfl rfl rfl (by decide) (by decide)).2 (by decide) rfl "aa" rfl (by decide) rfl
  · exact (claim_C9_stale_guard_one_sided (fun _ _ => "aa") 1000000
        ⟨"s", "b", some "v0=aa", some "1", none, none⟩ "1" "v0=aa" 1
        rfl rfl rfl (by decide) (by decide)).1.mpr (by decide)

/-- Claim C10: when both headers are present but the timestamp header parses
to `0` or to `NaN`, the error raised is the missing-headers error, and the
dedicated `NaN` branch is unreachable for every input: `verifySlackRequest`
never returns its `nanTimestamp` error. -/
theorem claim_C10_falsy_timestamp (hmac : String → String → String) (dateNowMs : Int) :
    (∀ (o : VerifyOptions) (ts sig : String),
      o.timestampHeader = some ts → o.signatureHeader = some sig →
      (parseIntJS ts = none ∨ parseIntJS ts = some 0) →
      verifySlackRequest hmac dateNowMs o = Except.error VerifyError.missingHeaders) ∧
    (∀ o : VerifyOptions,
      verifySlackRequest hmac dateNowMs o ≠ Except.error VerifyError.nanTimestamp) := by
  constructor
  · intro o ts sig hts hsig hfal
    rw [verify_headers_some hmac dateNowMs o ts sig hts hsig]
    rcases hfal with h | h
    · exact verify_core_falsy hmac dateNowMs o ts sig (Or.inl h)
    · exact verify_core_falsy hmac dateNowMs o ts sig (Or.inr (Or.inl h))
  · exact verify_ne_nan hmac dateNowMs

/-- Witness for claim C10: the literal header `"0"` and the non-numeric
header `"abc"` both raise the missing-headers error. -/
theorem claim_C10_witness :
    verifySlackRequest (fun _ _ => "aa") 0
        ⟨"s", "b", some "v0=aa", some "0", some 0, none⟩
      = Except.error VerifyError.missingHeaders ∧
    verifySlackRequest (fun _ _ => "aa") 0
        ⟨"s", "b", some "v0=aa", some "abc", some 0, none⟩
      = Except.error VerifyError.missingHeaders ∧
    verifySlackRequest (fun _ _ => "aa") 0
        ⟨"s", "b", some "v0=aa", some "abc", some 0, none⟩
      ≠ Except.error VerifyError.nanTimestamp := by
  refine ⟨?_, ?_, ?_⟩
  · exact (claim_C10_falsy_timestamp (fun _ _ => "aa") 0).1 _ "0" "v0=aa" rfl rfl (Or.inr rfl)
  · exact (claim_C10_falsy_timestamp (fun _ _ => "aa") 0).1 _ "abc" "v0=aa" rfl rfl (Or.inl rfl)
  · exact (claim_C10_falsy_timestamp (fun _ _ => "aa") 0).2 _

/-- A JavaScript object property that may be absent (the `in` operator is
false), present with the value `undefined`, or present with a value.  The
distinction between `absent` and `undef` matters for
`SlackHandler.preprocess`, which tests presence with `in` and then overwrites
one side of the split with the value `undefined`. -/
inductive JSVal (α : Type) where
  | absent : JSVal α
  | undef : JSVal α
  | val : α → JSVal α
deriving DecidableEq, Repr

/-- The `in` operator: the property exists, its value may still be undefined. -/
def JSVal.present {α : Type} : JSVal α → Bool
  | JSVal.absent => false
  | JSVal.undef => true
  | JSVal.val _ => true

/-- Truthiness of an array-valued property: any array object is truthy (the
empty array included); `undefined` and an absent property are falsy. -/
def JSVal.isVal {α : Type} : JSVal α → Bool
  | JSVal.val _ => true
  | _ => false

/-- Truthiness of an optional string value: absent/undefined and the empty
string are falsy. -/
def truthyStr : Option String → Bool
  | some s => s ≠ ""
  | none => false

/-- A member of `files` on a Slack message event (`Slack.UploadedFile`). -/
structure UploadedFile where
  urlPrivate : String
  name : String
  mimetype : String
deriving DecidableEq, Repr

/-- One element of the `actions` array of a block action payload; `textText`
is the nested `action.text.text` used by `getMessage`. -/
structure SlackAction where
  value : Option String
  actionTs : Option String
  textText : String
deriving DecidableEq, Repr

/-- The parsed interactive payload (`Slack.BlockAction`): `btype` is its
`type` field, `channelId` is `channel.id`, `userId` is `user.id`. -/
structure BlockActionBody where
  btype : String
  actions : List SlackAction
  channelId : String
  userId : String
  responseUrl : Option String
deriving DecidableEq, Repr

/-- The inner `event` object of an event callback: `etype` is `event.type`
(`"message"`, `"app_mention"`, `"app_home_opened"`, ...); `text` and `files`
are `JSVal` because `preprocess` distinguishes presence from definedness. -/
structure InnerEvent where
  etype : String
  text : JSVal String
  files : JSVal (List UploadedFile)
  botId : Option String
  channel : String
  channelType : Option String
  user : Option String
  ts : String
deriving DecidableEq, Repr

/-- `Slack.IncomingEvent`: the value handed to the wrapper, either the
event-callback body itself (its top-level `type` field in `btype`) or the
parsed interactive payload. -/
inductive IncomingEvent where
  | eventCallback (btype : Option String) (event : InnerEvent) (apiAppId : Option String)
  | blockAction (body : BlockActionBody)
deriving DecidableEq, Repr

/-- The `type` field of the wrapped value, as read by `e.type` checks. -/
def typeField : IncomingEvent → Option String
  | IncomingEvent.eventCallback bt _ _ => bt
  | IncomingEvent.blockAction b => some b.btype

/-- The raw decoded webhook request body (`req.body`): each field is an
optional top-level property.  `payload` stands for the already-parsed JSON
string of the form field of the same name.  `actionsTop` and `command` model
top-level `actions` and `command` properties, which `SlackHandler.handle`
never inspects. -/
structure WebhookBody where
  rtype : Option String
  challenge : Option String
  payload : Option BlockActionBody
  event : Option InnerEvent
  apiAppId : Option String
  actionsTop : Option (List SlackAction)
  command : Option String
deriving DecidableEq, Repr

/-- `StdEventType` of the chat engine (only the members this channel uses). -/
inductive StdEventType where
  | echo
  | message
  | unknown
deriving DecidableEq, Repr

/-- `IncomingMessageType` of the chat engine (members used by this channel;
`quick_reply` is used by the revisions in src/unnamed/part_002/part_003). -/
inductive IncomingMessageType where
  | message
  | postback
  | attachments
  | quick_reply
  | unknown
deriving DecidableEq, Repr

/-- The `_adapter` record filled in by `SlackEventWrapper._init`
(src/wrapper.ts, lines 69-84); `messageType` is `none` when `_init` left it
unassigned (the unknown branch). -/
structure Adapter where
  eventType : StdEventType
  messageType : Option IncomingMessageType
deriving DecidableEq, Repr

/-- Shallow embedding of `SlackEventWrapper._init` (src/wrapper.ts, lines
69-84).  The result is `none` when the source would throw: a body whose
`type` field says `event_callback` but which has no `event` object makes
`e.event.bot_id` raise a `TypeError`.  For an event callback, a truthy
`bot_id` yields `echo`, otherwise `message`; a truthy `files` property (any
array) yields the `attachments` message type, otherwise `message`. -/
def slackInit : IncomingEvent → Option Adapter
  | e =>
    if typeField e = some "block_actions" then
      some ⟨StdEventType.message, some IncomingMessageType.postback⟩
    else if typeField e = some "event_callback" then
      match e with
      | IncomingEvent.eventCallback _ ev _ =>
        some ⟨if truthyStr ev.botId then StdEventType.echo else StdEventType.message,
              some (if ev.files.isVal then IncomingMessageType.attachments
                    else IncomingMessageType.message)⟩
      | IncomingEvent.blockAction _ => none
    else
      some ⟨StdEventType.unknown, none⟩

/-- Shallow embedding of the static `SlackEventWrapper.getChannelType`
(src/wrapper.ts, lines 86-98), evaluated in the wrapper constructor.  The
outer `Option` is `none` when the source would throw on a shape whose `type`
string does not match its actual structure; the inner `Option` is the
possibly-undefined channel type value. -/
def getChannelType : IncomingEvent → Option (Option String)
  | e =>
    if typeField e = some "block_actions" then
      match e with
      | IncomingEvent.blockAction b =>
        some (some (if b.channelId.toList.take 1 = ['D'] then "im" else "channel"))
      | IncomingEvent.eventCallback _ _ _ => none
    else if typeField e = some "event_callback" then
      match e with
      | IncomingEvent.eventCallback _ ev _ =>
        if ev.etype = "message" then some ev.channelType
        else some (some (if ev.channel.toList.take 1 = ['D'] then "im" else "channel"))
      | IncomingEvent.blockAction _ => none
    else some none

/-- Shallow embedding of `SlackHandler.preprocess` (src/index.channel.ts,
lines 115-147): an event callback whose inner event has both a `text` and a
`files` property (present in the `in` sense) is split into a text-only copy
(`files` overwritten with `undefined`) and a files-only copy (`text`
overwritten with `undefined`); every other value is returned alone. -/
def preprocess : IncomingEvent → List IncomingEvent
  | IncomingEvent.eventCallback bt ev app =>
    if ev.text.present ∧ ev.files.present then
      [IncomingEvent.eventCallback bt { ev with files := JSVal.undef } app,
       IncomingEvent.eventCallback bt { ev with text := JSVal.undef } app]
    else [IncomingEvent.eventCallback bt ev app]
  | e => [e]

/-- One dispatch attempt of the `events.forEach` loop in
`SlackHandler.handle`: the wrapper constructor evaluates `getChannelType`
and `_init` (a throw is caught and logged, nothing is emitted), and the event
is emitted to the bot pipeline exactly when its event type is not
`unknown`. -/
def emitOf (e : IncomingEvent) : Option (StdEventType × IncomingEvent) :=
  match getChannelType e with
  | none => none
  | some _ =>
    match slackInit e with
    | none => none
    | some ad => if ad.eventType ≠ StdEventType.unknown then some (ad.eventType, e) else none

/-- The observable outcome of `SlackHandler.handle`: HTTP status, response
body (`none` models sending `undefined`), and the events emitted to the bot
pipeline, in order. -/
structure HandleResult where
  status : Nat
  resBody : Option String
  emitted : List (StdEventType × IncomingEvent)
deriving DecidableEq, Repr

/-- The `data` value computed by `SlackHandler.handle` (src/index.channel.ts,
line 164): the parsed `payload` field if present, else the body itself when
it has a top-level `event` property, else `undefined`. -/
def toIncoming (b : WebhookBody) : Option IncomingEvent :=
  match b.payload with
  | some p => some (IncomingEvent.blockAction p)
  | none =>
    match b.event with
    | some ev => some (IncomingEvent.eventCallback b.rtype ev b.apiAppId)
    | none => none

/-- Shallow embedding of `SlackHandler.handle` (src/index.channel.ts, lines
155-205).  In order: the URL-verification handshake echoes the challenge
with status 200; a body that is neither a wrapped payload nor an event
callback is answered with status 400 and nothing is forwarded; an
`app_home_opened` event and any unsupported event type are acknowledged with
200 and not forwarded; a block action whose first action has value `"url"`
is ignored with 200; everything else is preprocessed and each resulting
event is dispatched. -/
def handle (b : WebhookBody) : HandleResult :=
  if b.rtype = some "url_verification" then ⟨200, b.challenge, []⟩
  else
    match toIncoming b with
    | none => ⟨400, some "", []⟩
    | some data =>
      match data with
      | IncomingEvent.eventCallback bt ev _ =>
        if ev.etype = "app_home_opened" then ⟨200, some "", []⟩
        else if ¬ ((ev.etype = "message" ∨ ev.etype = "app_mention") ∧
                   bt = some "event_callback") then ⟨200, some "", []⟩
        else ⟨200, some "", (preprocess data).filterMap emitOf⟩
      | IncomingEvent.blockAction ba =>
        if (ba.actions.head?.bind SlackAction.value) = some "url" then ⟨200, some "", []⟩
        else ⟨200, some "", (preprocess data).filterMap emitOf⟩

theorem emitOf_eventCallback (ev : InnerEvent) (app : Option String) :
    emitOf (IncomingEvent.eventCallback (some "event_callback") ev app) =
      some (if truthyStr ev.botId then StdEventType.echo else StdEventType.message,
            IncomingEvent.eventCallback (some "event_callback") ev app) := by
  have hct : ∃ v, getChannelType (IncomingEvent.eventCallback (some "event_callback") ev app)
      = some v := by
    unfold getChannelType typeField
    by_cases hm : ev.etype = "message" <;> simp [hm]
  obtain ⟨v, hv⟩ := hct
  have hsi : slackInit (IncomingEvent.eventCallback (some "event_callback") ev app) =
      some ⟨if truthyStr ev.botId then StdEventType.echo else StdEventType.message,
            some (if ev.files.isVal then IncomingMessageType.attachments
                  else IncomingMessageType.message)⟩ := by
    unfold slackInit typeField
    simp
  unfold emitOf
  rw [hv, hsi]
  by_cases hb : truthyStr ev.botId <;> simp [hb]

/-- Claim C2: an event callback whose inner event carries both a `text` and a
`files` property is split by `preprocess` into exactly two event callbacks,
one with `files` removed (overwritten by `undefined`) and one with `text`
removed; every other value yields exactly one event; and `handle` dispatches
both halves of a supported split event to the bot pipeline, dropping
neither. -/
theorem claim_C2_text_files_split :
    (∀ (bt : Option String) (ev : InnerEvent) (app : Option String),
      ev.text.present = true → ev.files.present = true →
      preprocess (IncomingEvent.eventCallback bt ev app) =
        [IncomingEvent.eventCallback bt { ev with files := JSVal.undef } app,
         IncomingEvent.eventCallback bt { ev with text := JSVal.undef } app]) ∧
    (∀ e : IncomingEvent,
      (∀ bt ev app, e = IncomingEvent.eventCallback bt ev app →
        ¬ (ev.text.present = true ∧ ev.files.present = true)) →
      preprocess e = [e]) ∧
    (∀ (b : WebhookBody) (ev : InnerEvent),
      b.payload = none → b.event = some ev → b.rtype = some "event_callback" →
      (ev.etype = "message" ∨ ev.etype = "app_mention") →
      ev.text.present = true → ev.files.present = true →
      handle b = ⟨200, some "",
        [(if truthyStr ev.botId then StdEventType.echo else StdEventType.message,
          IncomingEvent.eventCallback (some "event_callback")
            { ev with files := JSVal.undef } b.apiAppId),
         (if truthyStr ev.botId then StdEventType.echo else StdEventType.message,
          IncomingEvent.eventCallback (some "event_callback")
            { ev with text := JSVal.undef } b.apiAppId)]⟩) := by
  refine ⟨?_, ?_, ?_⟩
  · intro bt ev app ht hf
    simp only [preprocess]
    rw [if_pos ⟨ht, hf⟩]
  · intro e hno
    match e with
    | IncomingEvent.blockAction b => rfl
    | IncomingEvent.eventCallback bt ev app =>
      simp only [preprocess]
      rw [if_neg (hno bt ev app rfl)]
  · intro b ev hp he hrt hsup ht hf
    obtain ⟨rt, ch, pl, evf, appId, acts, cmd⟩ := b
    simp only at hp he hrt ⊢
    subst hp he hrt
    rcases hsup with h | h <;>
      simp [handle, toIncoming, preprocess, h, ht, hf, emitOf_eventCallback]

/-- Witness for claim C2: a concrete message event carrying both
`text: "hi"` and one file is handled as two dispatched events, the first
text-only, the second files-only. -/
theorem claim_C2_witness :
    handle ⟨some "event_callback", none, none,
        some ⟨"message", JSVal.val "hi", JSVal.val [⟨"u", "f.png", "image/png"⟩],
              none, "C1", some "im", some "U1", "1"⟩, none, none, none⟩
      = ⟨200, some "",
         [(StdEventType.message,
           IncomingEvent.eventCallback (some "event_callback")
             ⟨"message", JSVal.val "hi", JSVal.undef, none, "C1", some "im", some "U1", "1"⟩ none),
          (StdEventType.message,
           IncomingEvent.eventCallback (some "event_callback")
             ⟨"message", JSVal.undef, JSVal.val [⟨"u", "f.png", "image/png"⟩],
              none, "C1", some "im", some "U1", "1"⟩ none)]⟩ := by
  have h := claim_C2_text_files_split.2.2
    ⟨some "event_callback", none, none,
        some ⟨"message", JSVal.val "hi", JSVal.val [⟨"u", "f.png", "image/png"⟩],
              none, "C1", some "im", some "U1", "1"⟩, none, none, none⟩
    ⟨"message", JSVal.val "hi", JSVal.val [⟨"u", "f.png", "image/png"⟩],
              none, "C1", some "im", some "U1", "1"⟩
    rfl rfl rfl (Or.inl rfl) rfl rfl
  simpa using h

/-- Claim C3, counterexample: the empty webhook body (none of the known
shapes) is answered by `handle` with HTTP status 400, an error status, not
the success status 200 stated by the claim. -/
theorem claim_C3_counterexample :
    handle ⟨none, none, none, none, none, none, none⟩ = ⟨400, some "", []⟩ ∧
    (handle ⟨none, none, none, none, none, none, none⟩).status ≠ 200 :=
  ⟨rfl, by decide⟩

/-- Claim C3, amended: for every inbound webhook body that matches none of
the known shapes (not URL-verification, no wrapped `payload` field, no
top-level `event` object), the handler responds with HTTP status 400 (an
error status) and does not forward any event to the bot pipeline; top-level
`actions` or `command` fields are never inspected by `handle`, so such bodies
are answered 400 as well. -/
theorem claim_C3_unknown_body (b : WebhookBody)
    (hrt : ¬ b.rtype = some "url_verification")
    (hp : b.payload = none) (he : b.event = none) :
    handle b = ⟨400, some "", []⟩ := by
  unfold handle
  rw [if_neg hrt]
  have hdata : toIncoming b = none := by
    unfold toIncoming
    rw [hp, he]
  rw [hdata]

/-- Witness for claim C3: a body carrying only a `command` field (a slash
command, one of the shapes `handle` never parses) gets status 400 and no
dispatched event. -/
theorem claim_C3_witness :
    handle ⟨some "event_callback", none, none, none, none, none, some "/cmd"⟩
      = ⟨400, some "", []⟩ :=
  claim_C3_unknown_body _ (by decide) rfl rfl

/-- Modelled from the spec: the declaration of the legacy `Slack.SlackType`
enum is not under src/, only its use sites are (src/wrapper.ts lines 405-432,
src/unnamed/part_002 and part_003).  Its members are wire `type` tags; the
exact literals are opaque here and only their distinctness matters, so they
are modelled as distinct strings. -/
def SlackType.interactive_message : String := "interactive_message"

def SlackType.block_actions : String := "block_actions"

def SlackType.incoming_message : String := "message"

/-- Modelled from the spec: the declaration of the legacy `Slack.CallbackId`
enum is not under src/; `quick_replies` is the reserved callback-id marker
placed on outgoing quick-reply prompts and matched by `isQuickReplies`. -/
def CallbackId.quick_replies : String := "quick_replies"

/-- One legacy secondary attachment, as read through
`original_message?.attachments?.[0]?.callback_id`. -/
structure MsgAttachment where
  callbackId : Option String
  text : Option String
deriving DecidableEq, Repr

/-- The `original_message` carried on a legacy interactive payload. -/
structure OriginalMessage where
  attachments : Option (List MsgAttachment)
deriving DecidableEq, Repr

/-- The flattened legacy `Slack.Event` consumed by the second revision of the
wrapper (src/wrapper.ts after line 291) and by src/unnamed/part_002/003:
every field is an optional property of the merged event object. -/
structure LegacyEvent where
  etype : Option String
  user : Option String
  appId : Option String
  apiAppId : Option String
  botId : Option String
  actions : Option (List SlackAction)
  channelType : Option String
  text : Option String
  files : Option (List UploadedFile)
  attachments : Option (List MsgAttachment)
  blocks : Option (List String)
  originalMessage : Option OriginalMessage
deriving DecidableEq, Repr

/-- JavaScript `hay.includes(needle)` on strings: some tail of `hay` starts
with `needle`. -/
def includesAux (needle : List Char) : List Char → Bool
  | [] => needle.isPrefixOf ([] : List Char)
  | c :: cs => needle.isPrefixOf (c :: cs) || includesAux needle cs

def strIncludes (hay needle : String) : Bool :=
  includesAux needle.toList hay.toList

/-- The `incoming_message` disjunct of the legacy `getEventType` condition:
type is the incoming-message tag and either the conversation is a channel
whose truthy text mentions the hard-coded bot user id placeholder, or the
conversation is a direct message. -/
def legacyIncomingCond (msg : LegacyEvent) : Bool :=
  msg.etype == some SlackType.incoming_message &&
    ((msg.channelType == some "channel" && truthyStr msg.text &&
        strIncludes (msg.text.getD "") "<@)sails.settings.slack_user_id>") ||
      msg.channelType == some "im")

/-- Shallow embedding of the legacy `SlackEventWrapper.getEventType`
(src/wrapper.ts, lines 405-432).  `none` models a thrown exception: the
`Method not implemented` throw for the placeholder user id, and the
`TypeError` from `msg.actions[0].value` when the action list is absent or
empty on an interactive body.  A truthy `app_id` strictly equal to
`api_app_id` resolves to `echo` before any message classification. -/
def LegacyWrapper.getEventType (msg : LegacyEvent) : Option StdEventType :=
  if msg.user = some "sails.settings.slack_user_id ???" then none
  else if truthyStr msg.appId && msg.appId == msg.apiAppId then some StdEventType.echo
  else if msg.etype == some SlackType.interactive_message
        || msg.etype == some SlackType.block_actions then
    match msg.actions.bind List.head? with
    | none => none
    | some a =>
      if a.value != some "url" || legacyIncomingCond msg then some StdEventType.message
      else some StdEventType.unknown
  else if legacyIncomingCond msg then some StdEventType.message
  else some StdEventType.unknown

/-- Shallow embedding of the legacy `SlackEventWrapper.getSenderForeignId`
(src/wrapper.ts, lines 389-397): it calls `getEventType` (which may throw,
modelled by the outer `Option`) and then returns `this._raw.user || null`,
that is the user when truthy and `null` otherwise — it never raises an
extraction error. -/
def LegacyWrapper.getSenderForeignId (msg : LegacyEvent) : Option (Option String) :=
  match LegacyWrapper.getEventType msg with
  | none => none
  | some _ => some (if truthyStr msg.user then msg.user else none)

/-- Shallow embedding of the legacy `SlackEventWrapper.getRecipientForeignId`
(src/wrapper.ts, lines 399-403): both branches return `null`. -/
def LegacyWrapper.getRecipientForeignId (msg : LegacyEvent) : Option (Option String) :=
  match LegacyWrapper.getEventType msg with
  | none => none
  | some _ => some none

/-- Shallow embedding of `SlackEventWrapper.isQuickReplies` (src/wrapper.ts,
lines 434-439, identical in src/unnamed/part_002/003): the first attachment
of the original outgoing message carries the reserved quick-replies
callback id. -/
def isQuickReplies (msg : LegacyEvent) : Bool :=
  (((msg.originalMessage.bind OriginalMessage.attachments).bind List.head?).bind
      MsgAttachment.callbackId) == some CallbackId.quick_replies

/-- Shallow embedding of `SlackEventWrapper.getEventType` of the memoized
wrapper revision (src/unnamed/part_003, lines 146-167): a truthy `bot_id`
resolves to `echo` first; interactive bodies whose first action value is not
`url` and incoming messages in a mentioning channel or a direct message
resolve to `message`; everything else is `unknown`.  `none` models the
`TypeError` from `msg.actions[0].value` on an interactive body without
actions. -/
def MemoWrapper.getEventType (msg : LegacyEvent) : Option StdEventType :=
  if truthyStr msg.botId then some StdEventType.echo
  else if msg.etype == some SlackType.interactive_message
        || msg.etype == some SlackType.block_actions then
    match msg.actions.bind List.head? with
    | none => none
    | some a =>
      if a.value != some "url" || legacyIncomingCond msg then some StdEventType.message
      else some StdEventType.unknown
  else if legacyIncomingCond msg then some StdEventType.message
  else some StdEventType.unknown

/-- Shallow embedding of `SlackEventWrapper.getMessageType` of the memoized
wrapper revision (src/unnamed/part_003, lines 185-203): evaluated only when
the event type is `echo` or `message`; the quick-reply check comes first,
then a present `actions` array yields `postback`, then a nonempty `files`
array yields `attachments`, then truthy text or present legacy
attachments/blocks yield `message`. -/
def MemoWrapper.getMessageType (msg : LegacyEvent) : Option IncomingMessageType :=
  match MemoWrapper.getEventType msg with
  | none => none
  | some et =>
    if et = StdEventType.echo ∨ et = StdEventType.message then
      if isQuickReplies msg then some IncomingMessageType.quick_reply
      else if msg.actions.isSome then some IncomingMessageType.postback
      else if (match msg.files with
               | some fs => decide (1 ≤ fs.length)
               | none => false) then some IncomingMessageType.attachments
      else if truthyStr msg.text || msg.attachments.isSome || msg.blocks.isSome then
        some IncomingMessageType.message
      else some IncomingMessageType.unknown
    else some IncomingMessageType.unknown

/-- Claim C4: an event callback whose inner event carries a bot-identity
marker always resolves to the `echo` event kind, whatever its other fields.
First conjunct: in `SlackEventWrapper._init`, a truthy `bot_id` yields
`echo` for any text, files, channel and channel type.  Second conjunct: in
the legacy `getEventType`, a truthy `app_id` equal to the receiving
`api_app_id` yields `echo` for any other field combination (the placeholder
user id, which makes the source throw before classifying, excluded). -/
theorem claim_C4_echo_precedence :
    (∀ (ev : InnerEvent) (app : Option String),
      truthyStr ev.botId = true →
      (slackInit (IncomingEvent.eventCallback (some "event_callback") ev app)).map
          Adapter.eventType
        = some StdEventType.echo) ∧
    (∀ msg : LegacyEvent,
      msg.user ≠ some "sails.settings.slack_user_id ???" →
      truthyStr msg.appId = true → msg.apiAppId = msg.appId →
      LegacyWrapper.getEventType msg = some StdEventType.echo) := by
  constructor
  · intro ev app hbot
    unfold slackInit typeField
    simp [hbot]
  · intro msg huser happ heq
    unfold LegacyWrapper.getEventType
    rw [if_neg huser, if_pos (by simp [happ, heq])]

/-- Witness for claim C4: a bot-authored message event with text, files and
a channel type that would otherwise classify as `message` resolves to
`echo`; so does a legacy event whose `app_id` equals the receiving app. -/
theorem claim_C4_witness :
    (slackInit (IncomingEvent.eventCallback (some "event_callback")
        ⟨"message", JSVal.val "hello", JSVal.val [⟨"u", "f", "image/png"⟩],
         some "B1", "C1", some "im", some "U1", "1"⟩ none)).map Adapter.eventType
      = some StdEventType.echo ∧
    LegacyWrapper.getEventType
        ⟨some "message", some "U2", some "A1", some "A1", none, none,
         some "im", some "hi", none, none, none, none⟩
      = some StdEventType.echo := by
  constructor
  · exact claim_C4_echo_precedence.1 _ none rfl
  · exact claim_C4_echo_precedence.2 _ (by decide) rfl rfl

/-- Claim C5: when the first action of a body with a non-empty action list
correlates to a previously sent quick-reply prompt (the reserved callback-id
marker on the original outgoing message), the resolved message kind is
`quick_reply`, although the actions-present condition for `postback` also
holds; without the marker the same body resolves to `postback`.  This is the
message classifier of the memoized wrapper revision
(src/unnamed/part_003). -/
theorem claim_C5_quickreply_precedence :
    (∀ (msg : LegacyEvent) (a : SlackAction) (rest : List SlackAction),
      isQuickReplies msg = true →
      msg.actions = some (a :: rest) →
      (MemoWrapper.getEventType msg = some StdEventType.echo ∨
        MemoWrapper.getEventType msg = some StdEventType.message) →
      MemoWrapper.getMessageType msg = some IncomingMessageType.quick_reply) ∧
    (∀ (msg : LegacyEvent) (a : SlackAction) (rest : List SlackAction),
      isQuickReplies msg = false →
      msg.actions = some (a :: rest) →
      (MemoWrapper.getEventType msg = some StdEventType.echo ∨
        MemoWrapper.getEventType msg = some StdEventType.message) →
      MemoWrapper.getMessageType msg = some IncomingMessageType.postback) := by
  constructor
  · intro msg a rest hq hact hdisj
    unfold MemoWrapper.getMessageType
    rcases hdisj with h | h <;> rw [h] <;> simp [hq]
  · intro msg a rest hq hact hdisj
    unfold MemoWrapper.getMessageType
    rcases hdisj with h | h <;> rw [h] <;> simp [hq, hact]

/-- Witness for claim C5: a concrete block-action body whose original message
carries the quick-replies marker classifies as `quick_reply`; the same body
without the marker classifies as `postback`. -/
theorem claim_C5_witness :
    MemoWrapper.getMessageType
        ⟨some "block_actions", some "U1", none, none, none,
         some [⟨some "PAYLOAD", some "1", "Yes"⟩], some "im", none, none, none, none,
         some ⟨some [⟨some "quick_replies", some "pick"⟩]⟩⟩
      = some IncomingMessageType.quick_reply ∧
    MemoWrapper.getMessageType
        ⟨some "block_actions", some "U1", none, none, none,
         some [⟨some "PAYLOAD", some "1", "Yes"⟩], some "im", none, none, none, none, none⟩
      = some IncomingMessageType.postback := by
  constructor
  · exact claim_C5_quickreply_precedence.1 _ ⟨some "PAYLOAD", some "1", "Yes"⟩ [] rfl rfl
      (Or.inr rfl)
  · exact claim_C5_quickreply_precedence.2 _ ⟨some "PAYLOAD", some "1", "Yes"⟩ [] rfl rfl
      (Or.inr rfl)

/-- Shallow embedding of `SlackEventWrapper.getUserForeignId`
(src/wrapper.ts, lines 118-132).  The `channelType` argument is the value
stored by the constructor (`getChannelData().channelType`).  The error
`"TypeError"` models the property access that the source would perform on an
undefined object when the `type` string disagrees with the actual body
shape; the named error is the `Unable to extract user id!` throw.  For a
direct message the extractor returns `e.event.user` as is — possibly
undefined — without checking it. -/
def getUserForeignId (channelType : Option String) (e : IncomingEvent) :
    Except String (Option String) :=
  if channelType = some "im" then
    if typeField e = some "block_actions" then
      match e with
      | IncomingEvent.blockAction b => Except.ok (some b.userId)
      | IncomingEvent.eventCallback _ _ _ => Except.error "TypeError"
    else if typeField e = some "event_callback" then
      match e with
      | IncomingEvent.eventCallback _ ev _ => Except.ok ev.user
      | IncomingEvent.blockAction _ => Except.error "TypeError"
    else Except.error "Unable to extract user id!"
  else Except.error "Unable to extract user id!"

/-- Shallow embedding of `SlackEventWrapper.getSenderForeignId`
(src/wrapper.ts, lines 139-149): the channel id for a block action, the
event channel for an event callback, a thrown error otherwise. -/
def getSenderForeignId (e : IncomingEvent) : Except String String :=
  if typeField e = some "block_actions" then
    match e with
    | IncomingEvent.blockAction b => Except.ok b.channelId
    | IncomingEvent.eventCallback _ _ _ => Except.error "TypeError"
  else if typeField e = some "event_callback" then
    match e with
    | IncomingEvent.eventCallback _ ev _ => Except.ok ev.channel
    | IncomingEvent.blockAction _ => Except.error "TypeError"
  else Except.error "Unable to extract conversation id!"

/-- Shallow embedding of `SlackEventWrapper.getRecipientForeignId`
(src/wrapper.ts, lines 156-166): same shape as the sender extractor with its
own error message. -/
def getRecipientForeignId (e : IncomingEvent) : Except String String :=
  if typeField e = some "block_actions" then
    match e with
    | IncomingEvent.blockAction b => Except.ok b.channelId
    | IncomingEvent.eventCallback _ _ _ => Except.error "TypeError"
  else if typeField e = some "event_callback" then
    match e with
    | IncomingEvent.eventCallback _ ev _ => Except.ok ev.channel
    | IncomingEvent.blockAction _ => Except.error "TypeError"
  else Except.error "Unable to extract channel id!"

/-- Claim C6, counterexample: the legacy extractors silently return `null`.
The legacy `getSenderForeignId` on an event without a `user` field returns
`null` without raising (first conjunct, the wrapped value `some none` is a
normal `null` return, not a throw); the legacy `getRecipientForeignId`
returns `null` even for a well-formed direct message that carries a user
(second conjunct). -/
theorem claim_C6_counterexample :
    LegacyWrapper.getSenderForeignId
        ⟨none, none, none, none, none, none, none, none, none, none, none, none⟩
      = some none ∧
    LegacyWrapper.getRecipientForeignId
        ⟨some "message", some "U1", none, none, none, none, some "im", some "hi",
         none, none, none, none⟩
      = some none :=
  ⟨rfl, rfl⟩

/-- Claim C6, amended: the extractors of the current wrapper either return
the expected identifier or raise an error — sender and recipient extraction
return the channel identifier for block-action and event-callback shapes and
raise a typed extraction error for any other body shape, and user extraction
raises outside direct-message conversations — but the legacy extractors do
silently return null: the legacy `getSenderForeignId` returns `null`
whenever the `user` field is absent, and the legacy `getRecipientForeignId`
returns `null` on every input on which it returns at all. -/
theorem claim_C6_extraction_errors :
    (∀ b : BlockActionBody, b.btype = "block_actions" →
      getSenderForeignId (IncomingEvent.blockAction b) = Except.ok b.channelId ∧
      getRecipientForeignId (IncomingEvent.blockAction b) = Except.ok b.channelId) ∧
    (∀ (bt : Option String) (ev : InnerEvent) (app : Option String),
      bt = some "event_callback" →
      getSenderForeignId (IncomingEvent.eventCallback bt ev app) = Except.ok ev.channel ∧
      getRecipientForeignId (IncomingEvent.eventCallback bt ev app) = Except.ok ev.channel) ∧
    (∀ e : IncomingEvent,
      typeField e ≠ some "block_actions" → typeField e ≠ some "event_callback" →
      getSenderForeignId e = Except.error "Unable to extract conversation id!" ∧
      getRecipientForeignId e = Except.error "Unable to extract channel id!") ∧
    (∀ (ct : Option String) (e : IncomingEvent), ct ≠ some "im" →
      getUserForeignId ct e = Except.error "Unable to extract user id!") ∧
    (∀ msg : LegacyEvent, msg.user = none →
      ∀ et, LegacyWrapper.getEventType msg = some et →
      LegacyWrapper.getSenderForeignId msg = some none) ∧
    (∀ (msg : LegacyEvent) (et : StdEventType),
      LegacyWrapper.getEventType msg = some et →
      LegacyWrapper.getRecipientForeignId msg = some none) := by
  refine ⟨?_, ?_, ?_, ?_, ?_, ?_⟩
  · intro b hb
    refine ⟨?_, ?_⟩
    · unfold getSenderForeignId typeField
      simp [hb]
    · unfold getRecipientForeignId typeField
      simp [hb]
  · intro bt ev app hbt
    subst hbt
    refine ⟨?_, ?_⟩
    · unfold getSenderForeignId typeField
      simp
    · unfold getRecipientForeignId typeField
      simp
  · intro e hba hec
    refine ⟨?_, ?_⟩
    · unfold getSenderForeignId
      rw [if_neg hba, if_neg hec]
    · unfold getRecipientForeignId
      rw [if_neg hba, if_neg hec]
  · intro ct e hct
    unfold getUserForeignId
    rw [if_neg hct]
  · intro msg huser et het
    unfold LegacyWrapper.getSenderForeignId
    rw [het, huser]
    rfl
  · intro msg et het
    unfold LegacyWrapper.getRecipientForeignId
    rw [het]

/-- Witness for claim C6: the current extractors on a block action, an event
callback, a shapeless body and a non-direct conversation, and the legacy
extractors on concrete events. -/
theorem claim_C6_witness :
    getSenderForeignId (IncomingEvent.blockAction ⟨"block_actions", [], "D42", "U7", none⟩)
      = Except.ok "D42" ∧
    getSenderForeignId (IncomingEvent.eventCallback (some "event_callback")
        ⟨"message", JSVal.val "hi", JSVal.absent, none, "C9", some "im", some "U7", "1"⟩ none)
      = Except.ok "C9" ∧
    getSenderForeignId (IncomingEvent.eventCallback (some "bogus")
        ⟨"message", JSVal.absent, JSVal.absent, none, "C9", some "im", some "U7", "1"⟩ none)
      = Except.error "Unable to extract conversation id!" ∧
    getUserForeignId (some "channel")
        (IncomingEvent.blockAction ⟨"block_actions", [], "D42", "U7", none⟩)
      = Except.error "Unable to extract user id!" ∧
    LegacyWrapper.getSenderForeignId
        ⟨some "message", none, none, none, none, none, some "im", some "hi",
         none, none, none, none⟩
      = some none := by
  refine ⟨?_, ?_, ?_, ?_, ?_⟩
  · exact (claim_C6_extraction_errors.1 ⟨"block_actions", [], "D42", "U7", none⟩ rfl).1
  · exact (claim_C6_extraction_errors.2.1 (some "event_callback")
      ⟨"message", JSVal.val "hi", JSVal.absent, none, "C9", some "im", some "U7", "1"⟩
      none rfl).1
  · exact (claim_C6_extraction_errors.2.2.1 _ (by decide) (by decide)).1
  · exact claim_C6_extraction_errors.2.2.2.1 (some "channel") _ (by decide)
  · exact claim_C6_extraction_errors.2.2.2.2.1 _ rfl StdEventType.message rfl

/-- An `Attachment` document of the external attachment store, as returned
by `fetchAndStoreAttachment`; `atype` is its MIME `type` field. -/
structure StoredAttachment where
  id : String
  atype : String
  name : String
deriving DecidableEq, Repr

/-- `Promise.all` over fallible fetches: all results in input order when
every fetch succeeds, the error of a failing fetch otherwise, with no
partial list ever produced. -/
def mapAll {α β : Type} (f : α → Except String β) : List α → Except String (List β)
  | [] => Except.ok []
  | x :: xs =>
    match f x with
    | Except.error e => Except.error e
    | Except.ok y =>
      match mapAll f xs with
      | Except.error e => Except.error e
      | Except.ok ys => Except.ok (y :: ys)

/-- The adapter state of the wrapper revision in src/unnamed/part_005:
`files` is `this._adapter.raw.event.files` (cast to `Slack.UploadedFile[]`),
`attachments` is the field assigned by `preprocess`, absent until then. -/
structure PreAdapter where
  eventType : StdEventType
  messageType : Option IncomingMessageType
  files : List UploadedFile
  attachments : Option (List StoredAttachment)
deriving DecidableEq, Repr

/-- Shallow embedding of `SlackEventWrapper.preprocess`
(src/unnamed/part_005, lines 96-111).  `fetchAndStoreAttachment` is the
handler collaborator fetching one transient URL and storing it durably; an
`Except.error` is a rejected promise.  For an attachments-kind message event
the whole file list is fetched with `Promise.all` and assigned at once; any
rejection propagates and the `attachments` field is left unassigned.  Other
events are returned unchanged. -/
def wrapperPreprocess
    (fetchAndStoreAttachment : String → String → Except String StoredAttachment)
    (ad : PreAdapter) : Except String PreAdapter :=
  if ad.eventType = StdEventType.message ∧
      ad.messageType = some IncomingMessageType.attachments then
    match mapAll (fun f => fetchAndStoreAttachment f.urlPrivate f.name) ad.files with
    | Except.error e => Except.error e
    | Except.ok atts => Except.ok { ad with attachments := some atts }
  else Except.ok ad

theorem mapAll_spec {α β : Type} (f : α → Except String β) (xs : List α) :
    (∃ ys, mapAll f xs = Except.ok ys ∧ ys.length = xs.length ∧
      ∀ (i : Nat) (h1 : i < xs.length) (h2 : i < ys.length),
        f (xs.get ⟨i, h1⟩) = Except.ok (ys.get ⟨i, h2⟩)) ∨
    (∃ e, mapAll f xs = Except.error e ∧ ∃ x, x ∈ xs ∧ f x = Except.error e) := by
  induction xs with
  | nil => exact Or.inl ⟨[], rfl, rfl, fun i h1 _ => absurd h1 (Nat.not_lt_zero i)⟩
  | cons x xs ih =>
    cases hf : f x with
    | error e =>
      refine Or.inr ⟨e, ?_, x, List.mem_cons_self x xs, hf⟩
      unfold mapAll
      rw [hf]
    | ok y =>
      rcases ih with ⟨ys, hok, hlen, hget⟩ | ⟨e, herr, z, hz, hfz⟩
      · refine Or.inl ⟨y :: ys, ?_, by simp [hlen], ?_⟩
        · unfold mapAll
          rw [hf, hok]
        · intro i h1 h2
          cases i with
          | zero => simpa using hf
          | succ j => simpa using hget j (by simpa using h1) (by simpa using h2)
      · refine Or.inr ⟨e, ?_, z, List.mem_cons_of_mem x hz, hfz⟩
        unfold mapAll
        rw [hf, herr]

/-- Claim C7: for an attachments-kind message event the prefetch either
replaces the whole file list by fetched-and-stored references — one stored
reference per file, in order — or propagates the error of a failing fetch
and leaves the `attachments` field unassigned; no partial attachment list is
ever produced.  Every other event passes through unchanged. -/
theorem claim_C7_prefetch_all_or_nothing
    (fetch : String → String → Except String StoredAttachment) (ad : PreAdapter) :
    (ad.eventType = StdEventType.message ∧
        ad.messageType = some IncomingMessageType.attachments →
      (∃ atts, wrapperPreprocess fetch ad = Except.ok { ad with attachments := some atts } ∧
        atts.length = ad.files.length ∧
        ∀ (i : Nat) (h1 : i < ad.files.length) (h2 : i < atts.length),
          fetch (ad.files.get ⟨i, h1⟩).urlPrivate (ad.files.get ⟨i, h1⟩).name
            = Except.ok (atts.get ⟨i, h2⟩)) ∨
      (∃ e, wrapperPreprocess fetch ad = Except.error e ∧
        ∃ f, f ∈ ad.files ∧ fetch f.urlPrivate f.name = Except.error e)) ∧
    (¬ (ad.eventType = StdEventType.message ∧
        ad.messageType = some IncomingMessageType.attachments) →
      wrapperPreprocess fetch ad = Except.ok ad) := by
  constructor
  · intro hcond
    rcases mapAll_spec (fun f => fetch f.urlPrivate f.name) ad.files with
      ⟨ys, hok, hlen, hget⟩ | ⟨e, herr, z, hz, hfz⟩
    · refine Or.inl ⟨ys, ?_, hlen, hget⟩
      unfold wrapperPreprocess
      rw [if_pos hcond, hok]
    · refine Or.inr ⟨e, ?_, z, hz, hfz⟩
      unfold wrapperPreprocess
      rw [if_pos hcond, herr]
  · intro hcond
    unfold wrapperPreprocess
    rw [if_neg hcond]

/-- Concrete fetcher for the claim C7 witness. -/
def fetchOkW : String → String → Except String StoredAttachment :=
  fun _ n => Except.ok ⟨"id", "t", n⟩

/-- Concrete attachments-kind adapter for the claim C7 witness. -/
def adW : PreAdapter :=
  ⟨StdEventType.message, some IncomingMessageType.attachments,
   [⟨"u1", "a.png", "image/png"⟩], none⟩

/-- Witness for claim C7: a one-file attachments event is fully prefetched
by a succeeding fetcher, and a failing fetcher propagates its error. -/
theorem claim_C7_witness :
    ((∃ atts, wrapperPreprocess fetchOkW adW = Except.ok { adW with attachments := some atts } ∧
        atts.length = adW.files.length ∧
        ∀ (i : Nat) (h1 : i < adW.files.length) (h2 : i < atts.length),
          fetchOkW (adW.files.get ⟨i, h1⟩).urlPrivate (adW.files.get ⟨i, h1⟩).name
            = Except.ok (atts.get ⟨i, h2⟩)) ∨
      (∃ e, wrapperPreprocess fetchOkW adW = Except.error e ∧
        ∃ f, f ∈ adW.files ∧ fetchOkW f.urlPrivate f.name = Except.error e)) ∧
    wrapperPreprocess fetchOkW adW
      = Except.ok { adW with attachments := some [⟨"id", "t", "a.png"⟩] } ∧
    wrapperPreprocess (fun _ _ => Except.error "network") adW = Except.error "network" :=
  ⟨(claim_C7_prefetch_all_or_nothing fetchOkW adW).1 ⟨rfl, rfl⟩, rfl, rfl⟩

/-- The character class `[A-Z0-9]` of the mention pattern. -/
def isUpperDigit (c : Char) : Bool :=
  ('A' ≤ c && c ≤ 'Z') || ('0' ≤ c && c ≤ '9')

/-- Length of the maximal run of characters satisfying `p` at the head. -/
def takeRun (p : Char → Bool) : List Char → Nat
  | [] => 0
  | c :: cs => if p c then takeRun p cs + 1 else 0

/-- Matches the tail `(?:\|[^>]+)?>` of the mention pattern at the head of
the list, returning the number of characters consumed.  `[^>]+` never
matches `>`, so its greedy run must end exactly at the first `>`. -/
def matchTail : List Char → Option Nat
  | '>' :: _ => some 1
  | '|' :: rest =>
    let j := takeRun (fun c => c != '>') rest
    if 1 ≤ j then
      match rest.drop j with
      | '>' :: _ => some (1 + j + 1)
      | _ => none
    else none
  | _ => none

/-- Backtracking of the greedy `[A-Z0-9]{8,11}`: try the id-run width from
the given bound down to 8, accepting the first width whose remainder matches
`matchTail`.  Returns the total consumed length after `<@U`. -/
def tryWidths (cs : List Char) : Nat → Option Nat
  | 0 => none
  | k + 1 =>
    if 8 ≤ k + 1 then
      match matchTail (cs.drop (k + 1)) with
      | some t => some (k + 1 + t)
      | none => tryWidths cs k
    else none

/-- Matches the mention pattern `<@U[A-Z0-9]{8,11}(?:\|[^>]+)?>` at the head
of the list, returning the length of the match. -/
def matchMention : List Char → Option Nat
  | '<' :: '@' :: 'U' :: rest =>
    (match tryWidths rest (min (takeRun isUpperDigit rest) 11) with
     | some n => some (3 + n)
     | none => none)
  | _ => none

/-- One left-to-right pass of the global replace: at each position, remove a
mention match and continue right after it, otherwise keep the character.
The fuel argument (an upper bound on the list length, consumed one step at a
time) makes the recursion structural; each step removes at least one
character, so the initial fuel `l.length` is never exhausted. -/
def removeMentionsFuel : Nat → List Char → List Char
  | _, [] => []
  | 0, l => l
  | fuel + 1, c :: cs =>
    match matchMention (c :: cs) with
    | some n => removeMentionsFuel fuel (cs.drop (n - 1))
    | none => c :: removeMentionsFuel fuel cs

def removeMentionsList (l : List Char) : List Char :=
  removeMentionsFuel l.length l

/-- JavaScript `trim`: strip whitespace from both ends (the source texts use
ASCII whitespace, covered by `Char.isWhitespace`). -/
def trimList (l : List Char) : List Char :=
  ((l.dropWhile Char.isWhitespace).reverse.dropWhile Char.isWhitespace).reverse

/-- Shallow embedding of `SlackEventWrapper.removeSlackMentions`
(src/wrapper.ts, lines 199-201):
`text.replace(/<@U[A-Z0-9]\x7b8,11\x7d(?:\|[^>]+)?>/g, '').trim()`. -/
def removeSlackMentions (s : String) : String :=
  String.mk (trimList (removeMentionsList s.toList))

/-- No position of the list starts a mention match. -/
def mentionFree : List Char → Bool
  | [] => true
  | c :: cs => (matchMention (c :: cs)).isNone && mentionFree cs

/-- `StdIncomingMessage` projections produced by `getMessage` (text message,
postback message, attachments message with its serialized text and the
`(type, url)` pairs of the mapped attachments). -/
inductive StdIncomingMessage where
  | textMsg (text : String)
  | postbackMsg (text : String) (payload : Option String)
  | attachmentsMsg (serializedText : String) (attachments : List (String × String))
deriving DecidableEq, Repr

/-- Shallow embedding of `SlackEventWrapper.getMessage` (src/wrapper.ts,
lines 208-244).  `typeByMime` is the external `Attachment.getTypeByMime`
collaborator.  `a` and `raw` are the `_adapter` fields of the wrapper.
`none` models the property accesses that throw when the raw value does not
carry the fields the resolved message type promises (absent text, absent
event object, empty action or file lists), and the `undefined` result of the
uncovered switch cases. -/
def getMessage (typeByMime : String → String) (a : Adapter) (raw : IncomingEvent) :
    Option StdIncomingMessage :=
  match a.messageType with
  | some IncomingMessageType.message =>
    match raw with
    | IncomingEvent.eventCallback _ ev _ =>
      match ev.text with
      | JSVal.val t => some (StdIncomingMessage.textMsg (removeSlackMentions t))
      | _ => none
    | IncomingEvent.blockAction _ => none
  | some IncomingMessageType.postback =>
    match raw with
    | IncomingEvent.blockAction b =>
      match b.actions.head? with
      | some act => some (StdIncomingMessage.postbackMsg act.textText act.value)
      | none => none
    | IncomingEvent.eventCallback _ _ _ => none
  | some IncomingMessageType.attachments =>
    match raw with
    | IncomingEvent.eventCallback _ ev _ =>
      match ev.files with
      | JSVal.val (f :: fs) =>
        some (StdIncomingMessage.attachmentsMsg
          ("attachment:" ++ typeByMime f.mimetype ++ ":" ++ f.urlPrivate)
          ((f :: fs).map (fun x => (typeByMime x.mimetype, x.urlPrivate))))
      | _ => none
    | IncomingEvent.blockAction _ => none
  | _ => none

theorem removeMentionsFuel_of_mentionFree (fuel : Nat) :
    ∀ l : List Char, l.length ≤ fuel → mentionFree l = true →
      removeMentionsFuel fuel l = l := by
  induction fuel with
  | zero =>
    intro l hf _
    cases l with
    | nil => rfl
    | cons c cs => simp at hf
  | succ f ih =>
    intro l hf hm
    cases l with
    | nil => rfl
    | cons c cs =>
      unfold mentionFree at hm
      simp only [Bool.and_eq_true, Option.isNone_iff_eq_none] at hm
      unfold removeMentionsFuel
      simp only [hm.1]
      rw [ih cs (by simp at hf; omega) hm.2]

/-- Claim C8: for a text-kind event `getMessage` returns exactly the raw
text run through `removeSlackMentions`; on mention-free text the only
transformation is the whitespace trim; and a text containing `<@U12345678>`
normalizes to the same text with that markup removed and the result
trimmed. -/
theorem claim_C8_mention_strip (typeByMime : String → String) :
    (∀ (et : StdEventType) (bt : Option String) (ev : InnerEvent) (app : Option String)
        (t : String),
      ev.text = JSVal.val t →
      getMessage typeByMime ⟨et, some IncomingMessageType.message⟩
          (IncomingEvent.eventCallback bt ev app)
        = some (StdIncomingMessage.textMsg (removeSlackMentions t))) ∧
    (∀ s : String, mentionFree s.toList = true →
      removeSlackMentions s = String.mk (trimList s.toList)) ∧
    removeSlackMentions " hello <@U12345678> there " = "hello  there" := by
  refine ⟨?_, ?_, ?_⟩
  · intro et bt ev app t htext
    unfold getMessage
    simp only [htext]
  · intro s hm
    unfold removeSlackMentions removeMentionsList
    rw [removeMentionsFuel_of_mentionFree s.toList.length s.toList (Nat.le_refl _) hm]
  · rfl

/-- Witness for claim C8: a concrete text event with a user mention
normalizes to the mention-free trimmed text, and a mention-free text is only
trimmed. -/
theorem claim_C8_witness :
    getMessage (fun m => m) ⟨StdEventType.message, some IncomingMessageType.message⟩
        (IncomingEvent.eventCallback (some "event_callback")
          ⟨"message", JSVal.val " hi <@U12345678> ", JSVal.absent, none,
           "C1", some "im", some "U1", "1"⟩ none)
      = some (StdIncomingMessage.textMsg "hi") ∧
    removeSlackMentions "  plain text  " = "plain text" := by
  constructor
  · rw [(claim_C8_mention_strip (fun m => m)).1 StdEventType.message (some "event_callback")
      _ none " hi <@U12345678> " rfl]
    rfl
  · rw [(claim_C8_mention_strip (fun m => m)).2.1 "  plain text  " rfl]
    rfl

end SlackChannel
